import Mathlib

/-!
Verification of the Viewflow GRC ticket-approval application.

The definitions below are a shallow embedding of the repository's Python
sources (`ticketflow/flows.py`, `views.py`, `forms.py`, `models.py`,
`validators.py`, `admin.py`).  Pure computations become Lean functions;
database tables become lists of records; Django's mutable state becomes
explicit state passing; Python exceptions become `Except`.
-/

namespace GRCFlow

/-! ## Flow graph (`ticketflow/flows.py`, class `TicketFlow`)

The nodes of the workflow definition, in source order:
`start`, `save_user_fields`, `user_approval`, `user_decision`,
`dev_approval`, `dev_decision`, `ba_approval`, `ba_decision`,
`pm_approval`, `pm_decision`, `end`. -/

inductive Node where
  | start
  | save_user_fields
  | user_approval
  | user_decision
  | dev_approval
  | dev_decision
  | ba_approval
  | ba_decision
  | pm_approval
  | pm_decision
  | end_
deriving DecidableEq, Repr

/-- Decision fields of `TicketProcess` (`models.py`): the per-stage
`*_decision` jsonstore CharFields that the `flow.If` nodes read. -/
structure ProcState where
  user_decision : String
  dev_decision : String
  ba_decision : String
  pm_decision : String
deriving DecidableEq, Repr

/-- Successor function of `TicketFlow` (`flows.py` lines 25-90): each node's
`.Next`/`.Then`/`.Else` target.  Decision nodes are the `flow.If` nodes and
read the process decision fields; `flow.End()` has no successor. -/
def step : Node → ProcState → Option Node
  | .start, _ => some .save_user_fields
  | .save_user_fields, _ => some .user_approval
  | .user_approval, _ => some .user_decision
  | .user_decision, s =>
      some (if s.user_decision = "approved" then .dev_approval else .start)
  | .dev_approval, _ => some .dev_decision
  | .dev_decision, s =>
      some (if s.dev_decision = "approved" then .ba_approval else .user_approval)
  | .ba_approval, _ => some .ba_decision
  | .ba_decision, s =>
      some (if s.ba_decision = "approved" then .pm_approval else .dev_approval)
  | .pm_approval, _ => some .pm_decision
  | .pm_decision, s =>
      some (if s.pm_decision = "approved" then .end_ else .ba_approval)
  | .end_, _ => none

/-! ### Spec-side stage table for claim C1

The spec describes the four approval stages with a fixed forward order
start -> user_approval -> dev_approval -> ba_approval -> pm_approval -> end
and rejection returning to the immediately prior stage. -/

inductive Stage where
  | user
  | dev
  | ba
  | pm
deriving DecidableEq, Repr

/-- The `flow.If` node that examines a stage's decision. -/
def decisionNode : Stage → Node
  | .user => .user_decision
  | .dev => .dev_decision
  | .ba => .ba_decision
  | .pm => .pm_decision

/-- The decision field of the process that the stage's `flow.If` reads. -/
def stageDecision : Stage → ProcState → String
  | .user, s => s.user_decision
  | .dev, s => s.dev_decision
  | .ba, s => s.ba_decision
  | .pm, s => s.pm_decision

/-- Spec-side: the next stage in the fixed order
start -> user_approval -> dev_approval -> ba_approval -> pm_approval -> end. -/
def nextStageNode : Stage → Node
  | .user => .dev_approval
  | .dev => .ba_approval
  | .ba => .pm_approval
  | .pm => .end_

/-- Spec-side: the immediately prior stage in that fixed order (user's prior
stage is start). -/
def prevStageNode : Stage → Node
  | .user => .start
  | .dev => .user_approval
  | .ba => .dev_approval
  | .pm => .ba_approval

/-- C1: for every approval stage, the decision node advances to the next
stage exactly when that stage's recorded decision equals "approved", and
otherwise returns the process to the immediately prior stage in the fixed
order start -> user_approval -> dev_approval -> ba_approval -> pm_approval
-> end. -/
theorem decision_nodes_route_per_fixed_order (st : Stage) (s : ProcState) :
    (step (decisionNode st) s = some (nextStageNode st) ↔
      stageDecision st s = "approved") ∧
    (stageDecision st s ≠ "approved" →
      step (decisionNode st) s = some (prevStageNode st)) := by
  cases st <;>
    simp only [step, decisionNode, stageDecision, nextStageNode, prevStageNode] <;>
    split_ifs with h <;> simp [h]

/-- C1 witness: concrete evaluation at the user stage with an approved and
with a rejected decision. -/
theorem decision_nodes_route_per_fixed_order_witness :
    (step (decisionNode .user) ⟨"approved", "", "", ""⟩ =
        some (nextStageNode .user) ↔
      stageDecision .user ⟨"approved", "", "", ""⟩ = "approved") ∧
    (stageDecision .user ⟨"approved", "", "", ""⟩ ≠ "approved" →
      step (decisionNode .user) ⟨"approved", "", "", ""⟩ =
        some (prevStageNode .user)) :=
  decision_nodes_route_per_fixed_order .user ⟨"approved", "", "", ""⟩

/-! ## Claim C2: reachability of `end` (`flows.py`)

A trace of the workflow is a list of (node, decision-state) pairs, each
consecutive pair related by `step`, the state component recording the
process decision fields at the moment the node's outgoing transition
fired. -/

/-- One transition of the workflow between trace elements. -/
def EStep (p q : Node × ProcState) : Prop := step p.1 p.2 = some q.1

/-- Stage depth of each node in the linear flow. -/
def level : Node → Nat
  | .start => 0
  | .save_user_fields => 0
  | .user_approval => 1
  | .user_decision => 1
  | .dev_approval => 2
  | .dev_decision => 2
  | .ba_approval => 3
  | .ba_decision => 3
  | .pm_approval => 4
  | .pm_decision => 4
  | .end_ => 5

/-- The unique node through which stage depth k is entered from below. -/
def approvalAt : Nat → Node
  | 1 => .user_approval
  | 2 => .dev_approval
  | 3 => .ba_approval
  | 4 => .pm_approval
  | 5 => .end_
  | _ => .start

instance instDecEStep (p q : Node × ProcState) : Decidable (EStep p q) :=
  inferInstanceAs (Decidable (step p.1 p.2 = some q.1))

theorem step_level_le {a b : Node} {s : ProcState} (h : step a s = some b) :
    level b ≤ level a + 1 := by
  cases a <;> simp only [step, Option.some.injEq] at h
  case end_ => exact Option.noConfusion h
  all_goals (try split at h) <;> subst h <;> decide

theorem step_level_increase {a b : Node} {s : ProcState}
    (h : step a s = some b) (hlt : level a < level b) :
    b = approvalAt (level b) := by
  cases a <;> simp only [step, Option.some.injEq] at h
  case end_ => exact Option.noConfusion h
  all_goals (try split at h) <;> subst h <;> first
    | decide
    | (exact absurd hlt (by decide))

/-- The only transition into `end` is from `pm_decision` with an "approved"
pm decision. -/
theorem step_into_end {a : Node} {s : ProcState}
    (h : step a s = some .end_) :
    a = .pm_decision ∧ s.pm_decision = "approved" := by
  cases a <;> simp only [step, Option.some.injEq] at h
  case end_ => exact Option.noConfusion h
  case pm_decision =>
    refine ⟨rfl, ?_⟩
    by_contra hne
    simp [hne] at h
  all_goals first
    | (exact absurd h (by decide))
    | (split at h <;> exact absurd h (by decide))

/-- Any trace starting at `start` that reaches a node of stage depth at
least k (with 1 ≤ k) has visited the entry node of stage depth k. -/
theorem visits_approvalAt (k : Nat) (hk : 1 ≤ k)
    (l : List (Node × ProcState)) :
    l.Chain' EStep → l.head?.map Prod.fst = some .start →
    ∀ p ∈ l, k ≤ level p.1 → ∃ q ∈ l, q.1 = approvalAt k := by
  induction l using List.reverseRecOn with
  | nil => intro _ _ p hp; exact absurd hp (by simp)
  | append_singleton l b ih =>
    intro hchain hhead
    by_cases hl : l = []
    · subst hl
      intro p hp hkp
      have hpb : p = b := by simpa using hp
      subst hpb
      have hb1 : p.1 = .start := by simpa using hhead
      rw [hb1] at hkp
      simp [level] at hkp
      omega
    · have hsplit := List.chain'_append.mp hchain
      have hchain' : l.Chain' EStep := hsplit.1
      have hedge : EStep (l.getLast hl) b := by
        refine hsplit.2.2 (l.getLast hl) ?_ b ?_
        · rw [List.getLast?_eq_getLast l hl]; rfl
        · rfl
      have hhead' : l.head?.map Prod.fst = some .start := by
        rw [List.head?_append, List.head?_eq_head hl] at hhead
        rw [List.head?_eq_head hl]
        simpa using hhead
      intro p hp hkp
      rcases List.mem_append.mp hp with hp' | hp'
      · rcases ih hchain' hhead' p hp' hkp with ⟨q, hq, hq1⟩
        exact ⟨q, List.mem_append.mpr (Or.inl hq), hq1⟩
      · have hpb : p = b := by simpa using hp'
        subst hpb
        by_cases hcase : k ≤ level (l.getLast hl).1
        · rcases ih hchain' hhead' (l.getLast hl) (List.getLast_mem hl) hcase
            with ⟨q, hq, hq1⟩
          exact ⟨q, List.mem_append.mpr (Or.inl hq), hq1⟩
        · push_neg at hcase
          have h1 : level p.1 ≤ level (l.getLast hl).1 + 1 := step_level_le hedge
          have h2 : level (l.getLast hl).1 < level p.1 := by omega
          have h3 : p.1 = approvalAt (level p.1) := step_level_increase hedge h2
          have h4 : level p.1 = k := by omega
          refine ⟨p, List.mem_append.mpr (Or.inr (by simp)), ?_⟩
          rw [h3, h4]

/-- C2: the end node is never reached unless the trace passed through all
four approval stages, and the final transition into end fires from
`pm_decision` with pm_decision = "approved"; no path from start to end
bypasses any of the four stages. -/
theorem end_reached_only_through_all_stages
    (l : List (Node × ProcState))
    (hchain : l.Chain' EStep)
    (hhead : l.head?.map Prod.fst = some .start)
    (hlast : l.getLast?.map Prod.fst = some .end_) :
    (∃ p ∈ l, p.1 = Node.user_approval) ∧
    (∃ p ∈ l, p.1 = Node.dev_approval) ∧
    (∃ p ∈ l, p.1 = Node.ba_approval) ∧
    (∃ p ∈ l, p.1 = Node.pm_approval) ∧
    (∃ s, l.reverse.get? 1 = some (Node.pm_decision, s) ∧
      s.pm_decision = "approved") := by
  have hne : l ≠ [] := by
    intro h
    rw [h] at hlast
    simp at hlast
  have hlastmem : l.getLast hne ∈ l := List.getLast_mem hne
  have hlast1 : (l.getLast hne).1 = .end_ := by
    rw [List.getLast?_eq_getLast l hne] at hlast
    simpa using hlast
  have hlvl : level (l.getLast hne).1 = 5 := by rw [hlast1]; rfl
  have hv : ∀ k, 1 ≤ k → k ≤ 5 → ∃ q ∈ l, q.1 = approvalAt k := by
    intro k h1 h5
    exact visits_approvalAt k h1 l hchain hhead (l.getLast hne) hlastmem
      (by omega)
  refine ⟨?_, ?_, ?_, ?_, ?_⟩
  · exact hv 1 (by omega) (by omega)
  · exact hv 2 (by omega) (by omega)
  · exact hv 3 (by omega) (by omega)
  · exact hv 4 (by omega) (by omega)
  · have hchainrev : (l.reverse).Chain' (flip EStep) := by
      rw [List.chain'_reverse]
      exact hchain
    cases hr : l.reverse with
    | nil =>
      exact absurd (List.reverse_eq_nil_iff.mp hr) hne
    | cons pe rest =>
      have hl_eq : l = (pe :: rest).reverse := by
        rw [← hr, List.reverse_reverse]
      have hpe : pe.1 = .end_ := by
        have : l.getLast? = some pe := by
          rw [hl_eq]
          simp [List.getLast?_reverse]
        rw [this] at hlast
        simpa using hlast
      cases rest with
      | nil =>
        exfalso
        have hl2 : l = [pe] := by simpa using hl_eq
        rw [hl2] at hhead
        have : pe.1 = .start := by simpa using hhead
        rw [hpe] at this
        exact absurd this (by decide)
      | cons x t =>
        rw [hr] at hchainrev
        have hstep : EStep x pe := (List.chain'_cons.mp hchainrev).1
        have hstep' : step x.1 x.2 = some Node.end_ := by
          have := hstep
          unfold EStep at this
          rw [hpe] at this
          exact this
        obtain ⟨hx1, hx2⟩ := step_into_end hstep'
        refine ⟨x.2, ?_, hx2⟩
        show some x = some (Node.pm_decision, x.2)
        rw [← hx1]

/-- A concrete complete execution trace in which every stage approves. -/
def fullTrace : List (Node × ProcState) :=
  [(.start, ⟨"", "", "", ""⟩),
   (.save_user_fields, ⟨"", "", "", ""⟩),
   (.user_approval, ⟨"", "", "", ""⟩),
   (.user_decision, ⟨"approved", "", "", ""⟩),
   (.dev_approval, ⟨"approved", "", "", ""⟩),
   (.dev_decision, ⟨"approved", "approved", "", ""⟩),
   (.ba_approval, ⟨"approved", "approved", "", ""⟩),
   (.ba_decision, ⟨"approved", "approved", "approved", ""⟩),
   (.pm_approval, ⟨"approved", "approved", "approved", ""⟩),
   (.pm_decision, ⟨"approved", "approved", "approved", "approved"⟩),
   (.end_, ⟨"approved", "approved", "approved", "approved"⟩)]

/-- C2 witness: a concrete complete trace of the flow in which every stage
approves, evaluated through the theorem. -/
theorem end_reached_only_through_all_stages_witness :
    (∃ p ∈ fullTrace, p.1 = Node.user_approval) ∧
    (∃ p ∈ fullTrace, p.1 = Node.dev_approval) ∧
    (∃ p ∈ fullTrace, p.1 = Node.ba_approval) ∧
    (∃ p ∈ fullTrace, p.1 = Node.pm_approval) ∧
    (∃ s, fullTrace.reverse.get? 1 = some (Node.pm_decision, s) ∧
      s.pm_decision = "approved") :=
  end_reached_only_through_all_stages fullTrace
    (by simp [fullTrace, EStep, step]) rfl rfl

/-! ## Data model (`ticketflow/models.py`) -/

/-- Field types of `FormField.FIELD_TYPES` (`models.py`): the nine values
the `field_type` column may take. -/
inductive FieldType where
  | text
  | textarea
  | select
  | file
  | email
  | date
  | number
  | checkbox
  | radio
deriving DecidableEq, Repr

/-- Row of the `FormField` metadata table (`models.py`).  `form_id` is the
foreign key to `Form`; `value`-less framework columns are omitted. -/
structure FormField where
  id : Nat
  form_id : Nat
  label : String
  field_type : FieldType
  required : Bool
  help_text : String
  choices : String
  max_length : Option Nat
  order : Nat
  role : String
  placeholder : String
  default_value : String
  min_value : Option Int
  max_value : Option Int
  regex : String
  readonly : Bool
  hidden : Bool
deriving DecidableEq, Repr

/-- Role keys of `FormField.ROLE_CHOICES` (`models.py`). -/
def ROLE_USER : String := "user"

/-- Row of the `FormEntryValue` table (`models.py`): one stored value per
(entry, field).  `value_file` is the stored file reference (`FileField`),
`none` when NULL. -/
structure FormEntryValue where
  entry_id : Nat
  field_id : Nat
  value_text : String
  value_file : Option String
deriving DecidableEq, Repr

/-- Row of the `FormEntry` table (`models.py`); `submitted_by` holds the
username of the submitting user, `none` when NULL. -/
structure FormEntryRow where
  id : Nat
  form_id : Nat
  submitted_by : Option String
deriving DecidableEq, Repr

/-! ## Claim C10: `validate_uploaded_file` (`ticketflow/validators.py`) -/

/-- Allowed MIME types (`validators.py`, `ALLOWED_CONTENT_TYPES`). -/
def ALLOWED_CONTENT_TYPES : List String :=
  ["image/png",
   "image/jpeg",
   "application/pdf",
   "application/vnd.openxmlformats-officedocument.wordprocessingml.document",
   "application/msword"]

/-- Upload size limit in megabytes (`validators.py`, `MAX_UPLOAD_MB`). -/
def MAX_UPLOAD_MB : Nat := 5

/-- An uploaded file as `validate_uploaded_file` sees it: `size` is `none`
when `f.size` is Python `None`; `content_type` is `none` when the attribute
is missing (the code reads it with `getattr(f, "content_type", "")`). -/
structure UploadedFile where
  size : Option Nat
  content_type : Option String
deriving DecidableEq, Repr

/-- Embedding of `validate_uploaded_file` (`validators.py` lines 14-23).
The Python code compares `(f.size or 0) / (1024 * 1024) > 5` in float
arithmetic; for integer byte counts this equals the integer comparison
`size > 5 * 1024 * 1024` (division by the power of two is exact), which is
how it is rendered here.  The dynamic part of the Python error message
(the formatted size) is elided. -/
def validate_uploaded_file (f : UploadedFile) : Except String Unit :=
  if f.size.getD 0 > MAX_UPLOAD_MB * 1024 * 1024 then
    Except.error "File too large"
  else
    let content_type := f.content_type.getD ""
    if content_type ≠ "" ∧ content_type ∉ ALLOWED_CONTENT_TYPES then
      Except.error "Unsupported file type."
    else
      Except.ok ()

/-- C10: `validate_uploaded_file` rejects exactly the files whose size
exceeds 5 MB or whose content type is non-empty and outside the allowed
set; a missing or empty content type passes the type check, and a `None`
size passes the size check. -/
theorem validate_uploaded_file_error_characterization (f : UploadedFile) :
    ((∃ e, validate_uploaded_file f = Except.error e) ↔
      (f.size.getD 0 > 5 * 1024 * 1024 ∨
        (f.content_type.getD "" ≠ "" ∧
          f.content_type.getD "" ∉ ALLOWED_CONTENT_TYPES))) ∧
    ((f.content_type = none ∨ f.content_type = some "") →
      (validate_uploaded_file f = Except.ok () ↔
        f.size.getD 0 ≤ 5 * 1024 * 1024)) ∧
    (f.size = none →
      validate_uploaded_file f ≠ Except.error "File too large") := by
  have hval : validate_uploaded_file f =
      (if f.size.getD 0 > 5 * 1024 * 1024 then
        Except.error "File too large"
      else if f.content_type.getD "" ≠ "" ∧
          f.content_type.getD "" ∉ ALLOWED_CONTENT_TYPES then
        Except.error "Unsupported file type."
      else Except.ok ()) := rfl
  refine ⟨?_, ?_, ?_⟩
  · rw [hval]
    split_ifs with h1 h2
    · exact iff_of_true ⟨_, rfl⟩ (Or.inl h1)
    · exact iff_of_true ⟨_, rfl⟩ (Or.inr h2)
    · constructor
      · rintro ⟨e, he⟩
        exact absurd he (by simp)
      · rintro (h | h)
        · exact absurd h h1
        · exact absurd h h2
  · intro hct
    have hct' : f.content_type.getD "" = "" := by
      rcases hct with h | h <;> simp [h]
    rw [hval]
    split_ifs with h1 h2
    · constructor
      · intro h
        exact absurd h (by simp)
      · intro h
        omega
    · exact absurd h2.1 (by simp [hct'])
    · exact iff_of_true rfl (by omega)
  · intro hs
    rw [hval, hs]
    split_ifs with h1 h2
    · exact absurd h1 (by simp)
    · simp
    · simp

/-- C10 witness: a 1-byte PNG passes; the theorem evaluated at it. -/
theorem validate_uploaded_file_error_characterization_witness :
    ((∃ e, validate_uploaded_file ⟨some 1, some "image/png"⟩ =
        Except.error e) ↔
      ((some 1 : Option Nat).getD 0 > 5 * 1024 * 1024 ∨
        ((some "image/png" : Option String).getD "" ≠ "" ∧
          (some "image/png" : Option String).getD "" ∉
            ALLOWED_CONTENT_TYPES))) ∧
    (((some "image/png" : Option String) = none ∨
        (some "image/png" : Option String) = some "") →
      (validate_uploaded_file ⟨some 1, some "image/png"⟩ = Except.ok () ↔
        (some 1 : Option Nat).getD 0 ≤ 5 * 1024 * 1024)) ∧
    ((some 1 : Option Nat) = none →
      validate_uploaded_file ⟨some 1, some "image/png"⟩ ≠
        Except.error "File too large") :=
  validate_uploaded_file_error_characterization ⟨some 1, some "image/png"⟩

/-! ## Claim C7: locking (`ticketflow/flows.py` line 22) -/

/-- Lock implementations shipped by the workflow library
(`viewflow.workflow.lock`): the framework offers a no-op lock, a cache
lock, and the database row lock built on `select_for_update`. -/
inductive LockImpl where
  | no_lock
  | cache_lock
  | select_for_update_lock
deriving DecidableEq, Repr

/-- The lock configured on the flow (`flows.py`:
`lock_impl = lock.select_for_update_lock`).  This single delegated lock is
the only synchronization construct the repository configures. -/
def TicketFlow_lock_impl : LockImpl := LockImpl.select_for_update_lock

/-- C7: TicketFlow's lock implementation is exactly the framework-provided
`select_for_update` row lock. -/
theorem lock_impl_is_delegated_select_for_update :
    TicketFlow_lock_impl = LockImpl.select_for_update_lock := rfl

/-! ## Claim C6: `send_submission_emails` (`ticketflow/views.py` lines 91-115) -/

/-- An `EmailMultiAlternatives` message as the code constructs it:
`EmailMultiAlternatives(subject, plain, to=emails)` followed by
`attach_alternative(html, "text/html")`.  `to_addrs` models the `to`
keyword argument. -/
structure EmailMessage where
  subject : String
  body : String
  to_addrs : List String
  alternatives : List (String × String)
deriving DecidableEq, Repr

/-- The plain-text rendering of the ticket_data snapshot
(`views.py`: `"\n".join(f"k: v" for k, v in ticket_data.items())`). -/
def plain_rendering (ticket_data : List (String × String)) : String :=
  String.intercalate "\n" (ticket_data.map (fun kv => kv.1 ++ ": " ++ kv.2))

/-- The HTML table rows of the snapshot (`views.py` lines 101-105). -/
def html_rows (ticket_data : List (String × String)) : String :=
  String.join (ticket_data.map (fun kv =>
    "<tr><th align=\x27left\x27 style=\x27padding:6px 10px\x27>" ++ kv.1 ++
      "</th><td style=\x27padding:6px 10px\x27>" ++ kv.2 ++ "</td></tr>"))

/-- The HTML rendering of the snapshot (`views.py` lines 106-110, the
`html` f-string). -/
def html_rendering (subject_pre form_name : String)
    (ticket_data : List (String × String)) (pk : Nat) : String :=
  "\n      <h3>" ++ subject_pre ++ ": " ++ form_name ++
    "</h3>\n      <table border=\"1\" cellpadding=\"0\" cellspacing=\"0\" style=\"border-collapse:collapse\">" ++
    html_rows ticket_data ++
    "</table>\n      <p>Process ID: " ++ toString pk ++ "</p>\n    "

/-- Embedding of `send_submission_emails` (`views.py` lines 91-115).  Its
inputs are the process fields the code reads (`process.form.name`,
`process.form.notify_emails`, `process.ticket_data`, `process.pk`); the
result is the message handed to the mail backend, `none` when the function
returns early because the recipient list is empty.  (`msg.send` itself is
called with `fail_silently=True` and has no observable effect on the
process.) -/
def send_submission_emails (form_name notify_emails : String)
    (ticket_data : List (String × String)) (pk : Nat)
    (subject_pre : String) : Option EmailMessage :=
  let emails :=
    ((notify_emails.splitOn ",").map (fun e => e.trim)).filter
      (fun e => e ≠ "")
  if emails.isEmpty then
    none
  else
    let subject := subject_pre ++ ": " ++ form_name
    some
      { subject := subject
        body := plain_rendering ticket_data
        to_addrs := emails
        alternatives := [(html_rendering subject_pre form_name ticket_data pk,
          "text/html")] }

/-- C6: the message goes to exactly the non-empty, whitespace-stripped,
comma-separated entries of `notify_emails`; it carries a plain-text body
and a single HTML alternative rendering the ticket_data snapshot; nothing
is sent when the recipient list is empty. -/
theorem send_submission_emails_spec (form_name notify_emails : String)
    (ticket_data : List (String × String)) (pk : Nat)
    (subject_pre : String) :
    (((notify_emails.splitOn ",").map (fun e => e.trim)).filter
        (fun e => e ≠ "") = [] →
      send_submission_emails form_name notify_emails ticket_data pk
        subject_pre = none) ∧
    (((notify_emails.splitOn ",").map (fun e => e.trim)).filter
        (fun e => e ≠ "") ≠ [] →
      send_submission_emails form_name notify_emails ticket_data pk
          subject_pre =
        some
          { subject := subject_pre ++ ": " ++ form_name
            body := plain_rendering ticket_data
            to_addrs := ((notify_emails.splitOn ",").map
              (fun e => e.trim)).filter (fun e => e ≠ "")
            alternatives := [(html_rendering subject_pre form_name
              ticket_data pk, "text/html")] }) := by
  constructor
  · intro h
    simp only [send_submission_emails]
    rw [h]
    rfl
  · intro h
    have hne : (((notify_emails.splitOn ",").map (fun e => e.trim)).filter
        (fun e => e ≠ "")).isEmpty = false := by
      rw [← Bool.not_eq_true, List.isEmpty_iff]
      exact h
    simp only [send_submission_emails]
    rw [hne]
    rfl

/-- C6 witness: two comma-separated addresses with stray whitespace and an
empty segment, evaluated through the theorem. -/
theorem send_submission_emails_spec_witness :
    (((" a@x.com, ,b@y.com".splitOn ",").map (fun e => e.trim)).filter
        (fun e => e ≠ "") = [] →
      send_submission_emails "F" " a@x.com, ,b@y.com" [("K", "V")] 7
        "New submission" = none) ∧
    (((" a@x.com, ,b@y.com".splitOn ",").map (fun e => e.trim)).filter
        (fun e => e ≠ "") ≠ [] →
      send_submission_emails "F" " a@x.com, ,b@y.com" [("K", "V")] 7
          "New submission" =
        some
          { subject := "New submission" ++ ": " ++ "F"
            body := plain_rendering [("K", "V")]
            to_addrs := ((" a@x.com, ,b@y.com".splitOn ",").map
              (fun e => e.trim)).filter (fun e => e ≠ "")
            alternatives := [(html_rendering "New submission" "F"
              [("K", "V")] 7, "text/html")] }) :=
  send_submission_emails_spec "F" " a@x.com, ,b@y.com" [("K", "V")] 7
    "New submission"

/-! ## Value storage (`ticketflow/views.py`, `_update_entry_values_for_role`) -/

/-- Association-list lookup, modelling Python `dict.get`. -/
def lookup? {α : Type} (m : List (String × α)) (k : String) : Option α :=
  (m.find? (fun kv => kv.1 == k)).map Prod.snd

/-- The `FormEntryValue` row for a given (entry, field) pair, `none` when
absent, modelling `FormEntryValue.objects.get(entry=..., field=...)`. -/
def db_lookup (vals : List FormEntryValue) (e fid : Nat) :
    Option FormEntryValue :=
  vals.find? (fun v => v.entry_id == e && v.field_id == fid)

/-- Modelling of `FormEntryValue.objects.get_or_create(entry=.., field=..)`
followed by field mutation and `v.save()`: update the existing row for
(entry, field), or append a fresh row (blank text, NULL file) and update
it. -/
def db_get_or_create_update (vals : List FormEntryValue) (e fid : Nat)
    (upd : FormEntryValue → FormEntryValue) : List FormEntryValue :=
  if vals.any (fun v => v.entry_id == e && v.field_id == fid) then
    vals.map (fun v =>
      if v.entry_id == e && v.field_id == fid then upd v else v)
  else
    vals ++
      [upd { entry_id := e, field_id := fid, value_text := "",
             value_file := none }]

/-- Embedding of `_update_entry_values_for_role` (`views.py` lines 52-76).
`form_fields` is the form's field list (`form_obj.fields`); `cleaned_data`
maps field keys to cleaned values (`none` models Python `None`); `files`
is `request.FILES` (`none` models a missing mapping, read via
`(files or {})`). -/
def _update_entry_values_for_role (vals : List FormEntryValue)
    (entry_id : Nat) (form_fields : List FormField)
    (cleaned_data : List (String × Option String))
    (files : Option (List (String × String))) (role : String) :
    List FormEntryValue :=
  (form_fields.filter (fun ff => ff.role == role)).foldl
    (fun acc ff =>
      let key := toString ff.id
      match ff.field_type with
      | FieldType.file =>
          match lookup? (files.getD []) key with
          | some file_obj =>
              db_get_or_create_update acc entry_id ff.id (fun v =>
                { v with value_text := "", value_file := some file_obj })
          | none => acc
      | _ =>
          let val := (lookup? cleaned_data key).getD (some "")
          db_get_or_create_update acc entry_id ff.id (fun v =>
            { v with value_file := none, value_text := val.getD "" }))
    vals

theorem db_lookup_map_other {vals : List FormEntryValue} {e0 fid e fid' : Nat}
    {upd : FormEntryValue → FormEntryValue}
    (hupd : ∀ v, (upd v).entry_id = v.entry_id ∧ (upd v).field_id = v.field_id)
    (hne : fid' ≠ fid) :
    db_lookup (vals.map (fun v =>
        if v.entry_id == e0 && v.field_id == fid then upd v else v)) e fid'
      = db_lookup vals e fid' := by
  induction vals with
  | nil => rfl
  | cons v t iht =>
    simp only [List.map_cons]
    unfold db_lookup at iht ⊢
    by_cases hv : (v.entry_id == e0 && v.field_id == fid) = true
    · rw [if_pos hv]
      have hfid : v.field_id = fid := by
        have h2 := ((Bool.and_eq_true _ _).mp hv).2
        simpa using h2
      have hp1 : ((upd v).entry_id == e && (upd v).field_id == fid') = false := by
        rw [(hupd v).1, (hupd v).2]
        simp [hfid, Ne.symm hne]
      have hp2 : (v.entry_id == e && v.field_id == fid') = false := by
        simp [hfid, Ne.symm hne]
      simp only [List.find?_cons]
      rw [hp1, hp2]
      exact iht
    · rw [if_neg hv]
      simp only [List.find?_cons]
      by_cases hp : (v.entry_id == e && v.field_id == fid') = true
      · rw [hp]
      · rw [Bool.not_eq_true] at hp
        rw [hp]
        exact iht

theorem db_lookup_get_or_create_other {vals : List FormEntryValue}
    {e0 fid e fid' : Nat} {upd : FormEntryValue → FormEntryValue}
    (hupd : ∀ v, (upd v).entry_id = v.entry_id ∧ (upd v).field_id = v.field_id)
    (hne : fid' ≠ fid) :
    db_lookup (db_get_or_create_update vals e0 fid upd) e fid'
      = db_lookup vals e fid' := by
  unfold db_get_or_create_update
  split
  · exact db_lookup_map_other hupd hne
  · unfold db_lookup
    rw [List.find?_append]
    have hnew : (List.find? (fun v => v.entry_id == e && v.field_id == fid')
        [upd { entry_id := e0, field_id := fid, value_text := "",
               value_file := none }]) = none := by
      rw [List.find?_cons_of_neg]
      · rfl
      · rw [(hupd _).1, (hupd _).2]
        simp [Ne.symm hne]
    rw [hnew, Option.or_none]

/-- Frame lemma for `_update_entry_values_for_role`: a field id that no
iterated (role-matching) field of the form carries is untouched, for every
entry. -/
theorem update_entry_values_other_field (form_fields : List FormField)
    (vals : List FormEntryValue) (entry_id : Nat)
    (cleaned_data : List (String × Option String))
    (files : Option (List (String × String))) (role : String) (fid' : Nat)
    (h : ∀ ff ∈ form_fields, ff.role = role → ff.id ≠ fid') (e : Nat) :
    db_lookup (_update_entry_values_for_role vals entry_id form_fields
        cleaned_data files role) e fid'
      = db_lookup vals e fid' := by
  unfold _update_entry_values_for_role
  have h' : ∀ ff ∈ form_fields.filter (fun ff => ff.role == role),
      ff.id ≠ fid' := by
    intro ff hff
    have hm := List.mem_filter.mp hff
    exact h ff hm.1 (by simpa using hm.2)
  revert h'
  generalize form_fields.filter (fun ff => ff.role == role) = fl
  intro h'
  induction fl generalizing vals with
  | nil => rfl
  | cons ff t iht =>
    rw [List.foldl_cons]
    have hff : ff.id ≠ fid' := h' ff (by simp)
    have h't : ∀ g ∈ t, g.id ≠ fid' := fun g hg => h' g (by simp [hg])
    rw [iht _ h't]
    cases hft : ff.field_type <;> simp only
    case file =>
      cases hlk : lookup? (files.getD []) (toString ff.id) with
      | some file_obj =>
        simp only [hlk]
        exact db_lookup_get_or_create_other (fun v => ⟨rfl, rfl⟩)
          (Ne.symm hff)
      | none => simp only [hlk]
    all_goals
      exact db_lookup_get_or_create_other (fun v => ⟨rfl, rfl⟩)
        (Ne.symm hff)

/-- C8: `_update_entry_values_for_role` touches only value rows of the
given form's fields with the given role; the stored value row of every
field of another role (or another form) is unchanged, at every entry. -/
theorem approval_stage_preserves_other_roles_values
    (all_fields : List FormField)
    (hids : (all_fields.map FormField.id).Nodup)
    (form_id : Nat) (vals : List FormEntryValue) (entry_id : Nat)
    (cleaned_data : List (String × Option String))
    (files : Option (List (String × String))) (role : String)
    (ff' : FormField) (hmem : ff' ∈ all_fields)
    (hother : ff'.role ≠ role ∨ ff'.form_id ≠ form_id) (e : Nat) :
    db_lookup (_update_entry_values_for_role vals entry_id
        (all_fields.filter (fun ff => ff.form_id == form_id))
        cleaned_data files role) e ff'.id
      = db_lookup vals e ff'.id := by
  apply update_entry_values_other_field
  intro ff hff hrl hid
  have hm := List.mem_filter.mp hff
  have heq : ff = ff' := List.inj_on_of_nodup_map hids hm.1 hmem hid
  rcases hother with hother | hother
  · rw [heq] at hrl
    exact hother hrl
  · rw [heq] at hm
    exact hother (by simpa using hm.2)

/-- C8 witness: a two-field form (one "user" field, one "dev" field); the
theorem applied with the dev field as the untouched other-role field. -/
theorem approval_stage_preserves_other_roles_values_witness :
    db_lookup (_update_entry_values_for_role
        [⟨1, 2, "old", none⟩]
        1
        ([⟨1, 10, "Summary", FieldType.text, true, "", "", none, 0, "user",
            "", "", none, none, "", false, false⟩,
          ⟨2, 10, "Dev notes", FieldType.text, false, "", "", none, 1, "dev",
            "", "", none, none, "", false, false⟩].filter
          (fun ff => ff.form_id == 10))
        [("1", some "new value")] none "user") 1 2
      = db_lookup [⟨1, 2, "old", none⟩] 1 2 :=
  approval_stage_preserves_other_roles_values
    [⟨1, 10, "Summary", FieldType.text, true, "", "", none, 0, "user",
        "", "", none, none, "", false, false⟩,
     ⟨2, 10, "Dev notes", FieldType.text, false, "", "", none, 1, "dev",
        "", "", none, none, "", false, false⟩]
    (by decide) 10 [⟨1, 2, "old", none⟩] 1 [("1", some "new value")] none
    "user"
    ⟨2, 10, "Dev notes", FieldType.text, false, "", "", none, 1, "dev",
        "", "", none, none, "", false, false⟩
    (by decide) (by left; decide) 1

/-! ## Process state and snapshots (`models.py`, `views.py`) -/

/-- Ordering relation of `FormField.Meta.ordering = ["order", "id"]`. -/
def fieldOrderRel (a b : FormField) : Prop :=
  a.order < b.order ∨ (a.order = b.order ∧ a.id ≤ b.id)

instance instDecFieldOrderRel : DecidableRel fieldOrderRel := fun a b => by
  unfold fieldOrderRel
  infer_instance

/-- A form's fields in the order the ORM returns them
(`form.fields.all()` under `Meta.ordering = ["order", "id"]`). -/
def orderedFields (fields : List FormField) : List FormField :=
  List.insertionSort fieldOrderRel fields

/-- Embedding of `_snapshot_from_entry` (`views.py` lines 79-88): flatten
the entry's values into label/value pairs over `entry.form.fields.all()`;
a missing row yields "", otherwise `v.value_text or (v.value_file.name if
v.value_file else "")`. -/
def _snapshot_from_entry (all_fields : List FormField)
    (vals : List FormEntryValue) (entry_form_id entry_id : Nat) :
    List (String × String) :=
  (orderedFields (all_fields.filter
      (fun ff => ff.form_id == entry_form_id))).map
    (fun ff =>
      (ff.label,
        match db_lookup vals entry_id ff.id with
        | some v =>
            if v.value_text ≠ "" then v.value_text else v.value_file.getD ""
        | none => ""))

/-- The `TicketProcess` row (`models.py` lines 136-167): form FK, the
one-to-one entry FK (`none` when NULL), the jsonstore snapshot, and the
per-stage decision/approver/comment fields. -/
structure TicketProcess where
  form_id : Nat
  entry : Option Nat
  ticket_data : List (String × String)
  user_decision : String
  dev_decision : String
  ba_decision : String
  pm_decision : String
  approved_by_user : String
  approved_by_dev : String
  approved_by_ba : String
  approved_by_pm : String
  user_comment : String
  dev_comment : String
  ba_comment : String
  pm_comment : String
deriving DecidableEq, Repr

/-- Database state the views touch: the `FormEntry` table, the
`FormEntryValue` table, and the persisted `TicketProcess` row as of the
last `process.save()` (`none` before any save in the modelled window). -/
structure Db where
  entries : List FormEntryRow
  value_rows : List FormEntryValue
  saved_process : Option TicketProcess
deriving DecidableEq, Repr

/-- Fresh autoincrement id for `FormEntry.objects.create`. -/
def nextEntryId (db : Db) : Nat :=
  (db.entries.map FormEntryRow.id).foldr max 0 + 1

/-- The form id of an entry row (`entry.form`); `fallback` covers the
dangling-FK case the code would never reach. -/
def entry_form_id_of (db : Db) (eid : Nat) (fallback : Nat) : Nat :=
  ((db.entries.find? (fun r => r.id == eid)).map
    FormEntryRow.form_id).getD fallback

/-! ## Claim C3: `_save_user_start_data` (`flows.py` lines 93-120) -/

/-- What `_save_user_start_data` reads from its activation: the requesting
user (`activation.request.user`, `none` when there is no request), whether
the activation has a `form` attribute, whether that form validates, its
`cleaned_data`, and `request.FILES`. -/
structure StartActivation where
  request_user : Option String
  has_form : Bool
  form_valid : Bool
  cleaned_data : List (String × Option String)
  files : Option (List (String × String))
deriving DecidableEq, Repr

/-- The body of `_save_user_start_data` up to and including
`process.save()` (`flows.py` lines 95-115): create the master entry when
missing, persist the requester-role values when the activation form is
valid, refresh the `ticket_data` snapshot, and save the process. -/
def _save_user_start_data_core (all_fields : List FormField)
    (act : StartActivation) (process : TicketProcess) (db : Db) :
    TicketProcess × Db :=
  let created : TicketProcess × Db :=
    match process.entry with
    | none =>
        ({ process with entry := some (nextEntryId db) },
         { db with entries := db.entries ++
             [{ id := nextEntryId db, form_id := process.form_id,
                submitted_by := act.request_user }] })
    | some _ => (process, db)
  let process1 := created.1
  let db1 := created.2
  let eid := process1.entry.getD 0
  let db2 :=
    if act.has_form && act.form_valid then
      { db1 with value_rows := (_update_entry_values_for_role db1.value_rows
          eid (all_fields.filter (fun ff => ff.form_id == process1.form_id))
          act.cleaned_data act.files ROLE_USER) }
    else db1
  let process2 := { process1 with
    ticket_data := (_snapshot_from_entry all_fields db2.value_rows
      (entry_form_id_of db2 eid process1.form_id) eid) }
  (process2, { db2 with saved_process := some process2 })

/-- Embedding of `_save_user_start_data` (`flows.py` lines 93-120): run the
persisting body, then try `send_submission_emails` and discard any outcome
(`try: ... except Exception: pass`).  `email` stands for the email send,
which may raise arbitrarily. -/
def _save_user_start_data (email : TicketProcess → Db → Except String Unit)
    (all_fields : List FormField) (act : StartActivation)
    (process : TicketProcess) (db : Db) : TicketProcess × Db :=
  let res := _save_user_start_data_core all_fields act process db
  match email res.1 res.2 with
  | Except.ok _ => res
  | Except.error _ => res

theorem save_user_start_data_eq_core
    (email : TicketProcess → Db → Except String Unit)
    (all_fields : List FormField) (act : StartActivation)
    (process : TicketProcess) (db : Db) :
    _save_user_start_data email all_fields act process db =
      _save_user_start_data_core all_fields act process db := by
  unfold _save_user_start_data
  cases h : email (_save_user_start_data_core all_fields act process db).1
    (_save_user_start_data_core all_fields act process db).2 <;> simp [h]

theorem save_user_start_data_core_persists (all_fields : List FormField)
    (act : StartActivation) (process : TicketProcess) (db : Db) :
    (_save_user_start_data_core all_fields act process db).1.entry.isSome ∧
    (_save_user_start_data_core all_fields act process db).2.saved_process =
      some (_save_user_start_data_core all_fields act process db).1 ∧
    (_save_user_start_data_core all_fields act process db).1.ticket_data =
      _snapshot_from_entry all_fields
        (_save_user_start_data_core all_fields act process db).2.value_rows
        (entry_form_id_of
          (_save_user_start_data_core all_fields act process db).2
          ((_save_user_start_data_core all_fields act
              process db).1.entry.getD 0)
          process.form_id)
        ((_save_user_start_data_core all_fields act process db).1.entry.getD
          0) := by
  cases hpe : process.entry <;>
    by_cases hv : (act.has_form && act.form_valid) = true <;>
    simp [_save_user_start_data_core, hpe, hv, entry_form_id_of]

/-- C3: the email send is best-effort.  For every behaviour of the email
send (any exception included) `_save_user_start_data` returns normally
with the same resulting state, in which the entry exists, the process row
with its final field values is persisted, and `ticket_data` holds the
refreshed snapshot of the entry; no email failure propagates. -/
theorem save_user_start_data_email_best_effort
    (email1 email2 : TicketProcess → Db → Except String Unit)
    (all_fields : List FormField) (act : StartActivation)
    (process : TicketProcess) (db : Db) :
    (_save_user_start_data email1 all_fields act process db =
      _save_user_start_data email2 all_fields act process db) ∧
    (_save_user_start_data email1 all_fields act process db).1.entry.isSome ∧
    (_save_user_start_data email1 all_fields act process db).2.saved_process
      = some (_save_user_start_data email1 all_fields act process db).1 ∧
    (_save_user_start_data email1 all_fields act process db).1.ticket_data =
      _snapshot_from_entry all_fields
        (_save_user_start_data email1 all_fields act process db).2.value_rows
        (entry_form_id_of
          (_save_user_start_data email1 all_fields act process db).2
          ((_save_user_start_data email1 all_fields act
              process db).1.entry.getD 0)
          process.form_id)
        ((_save_user_start_data email1 all_fields act process db).1.entry.getD
          0) := by
  rw [save_user_start_data_eq_core email1,
    save_user_start_data_eq_core email2]
  exact ⟨rfl,
    (save_user_start_data_core_persists all_fields act process db).1,
    (save_user_start_data_core_persists all_fields act process db).2.1,
    (save_user_start_data_core_persists all_fields act process db).2.2⟩

/-! ## Claim C9: `ApprovalView.form_valid` (`views.py` lines 222-251) -/

/-- The four approval roles wired by `as_view(role=...)` in `flows.py`. -/
inductive Role where
  | user
  | dev
  | ba
  | pm
deriving DecidableEq, Repr

/-- The role key string. -/
def roleKey : Role → String
  | .user => "user"
  | .dev => "dev"
  | .ba => "ba"
  | .pm => "pm"

/-- `setattr(process, f"role_decision", decision)`. -/
def set_decision (p : TicketProcess) (r : Role) (d : String) : TicketProcess :=
  match r with
  | .user => { p with user_decision := d }
  | .dev => { p with dev_decision := d }
  | .ba => { p with ba_decision := d }
  | .pm => { p with pm_decision := d }

/-- `setattr(process, f"approved_by_role", username)`. -/
def set_approved_by (p : TicketProcess) (r : Role) (u : String) :
    TicketProcess :=
  match r with
  | .user => { p with approved_by_user := u }
  | .dev => { p with approved_by_dev := u }
  | .ba => { p with approved_by_ba := u }
  | .pm => { p with approved_by_pm := u }

/-- The `role_comment` model field the per-role `ApprovalForm` saves. -/
def set_comment (p : TicketProcess) (r : Role) (c : String) : TicketProcess :=
  match r with
  | .user => { p with user_comment := c }
  | .dev => { p with dev_comment := c }
  | .ba => { p with ba_comment := c }
  | .pm => { p with pm_comment := c }

/-- Outcome of `form_valid`: either `form_invalid` re-renders the form with
an error, or the view completes (the framework saves the form and marks
the task done, advancing the flow). -/
inductive FormValidOutcome where
  | formInvalid (error : String)
  | completed
deriving DecidableEq, Repr

/-- Embedding of `ApprovalView.form_valid` (`views.py` lines 222-251).
`decision` is `request.POST.get("decision")` (`none` when absent);
`username` is `request.user.get_username()`; `comment` is the cleaned
`role_comment` value that `super().form_valid(form)` saves when it saves
the model form and completes the task. -/
def ApprovalView_form_valid (role : Role) (decision : Option String)
    (username : String) (all_fields : List FormField)
    (cleaned_data : List (String × Option String))
    (files : Option (List (String × String))) (comment : String)
    (process : TicketProcess) (db : Db) :
    FormValidOutcome × TicketProcess × Db :=
  if decision ≠ some "approved" ∧ decision ≠ some "rejected" then
    (FormValidOutcome.formInvalid "Please click Approve or Reject.",
      process, db)
  else
    let created : TicketProcess × Db :=
      match process.entry with
      | none =>
          ({ process with entry := some (nextEntryId db) },
           { db with entries := db.entries ++
               [{ id := nextEntryId db, form_id := process.form_id,
                  submitted_by := some username }] })
      | some _ => (process, db)
    let process1 := created.1
    let db1 := created.2
    let eid := process1.entry.getD 0
    let db2 := { db1 with value_rows := (_update_entry_values_for_role
        db1.value_rows eid
        (all_fields.filter (fun ff => ff.form_id == process1.form_id))
        cleaned_data files (roleKey role)) }
    let process2 := { process1 with
      ticket_data := (_snapshot_from_entry all_fields db2.value_rows
        (entry_form_id_of db2 eid process1.form_id) eid) }
    let process3 :=
      set_approved_by (set_decision process2 role (decision.getD ""))
        role username
    let db3 := { db2 with saved_process := some process3 }
    let process4 := set_comment process3 role comment
    (FormValidOutcome.completed, process4,
      { db3 with saved_process := some process4 })

/-- C9: a POSTed decision that is neither "approved" nor "rejected"
(including an absent one) makes `form_valid` re-render with an error and
leaves the process and the database exactly as they were: no entry is
created, no values are written, no decision, approver or snapshot is set,
and the flow does not advance. -/
theorem invalid_decision_changes_nothing (role : Role)
    (decision : Option String) (username : String)
    (all_fields : List FormField)
    (cleaned_data : List (String × Option String))
    (files : Option (List (String × String))) (comment : String)
    (process : TicketProcess) (db : Db)
    (h : decision ≠ some "approved" ∧ decision ≠ some "rejected") :
    ApprovalView_form_valid role decision username all_fields cleaned_data
        files comment process db =
      (FormValidOutcome.formInvalid "Please click Approve or Reject.",
        process, db) := by
  unfold ApprovalView_form_valid
  rw [if_pos h]

/-- C9 witness: an absent decision on a fresh process changes nothing. -/
theorem invalid_decision_changes_nothing_witness :
    ApprovalView_form_valid Role.user none "alice" [] [] none ""
        ⟨1, none, [], "", "", "", "", "", "", "", "", "", "", "", ""⟩
        ⟨[], [], none⟩ =
      (FormValidOutcome.formInvalid "Please click Approve or Reject.",
        ⟨1, none, [], "", "", "", "", "", "", "", "", "", "", "", ""⟩,
        ⟨[], [], none⟩) :=
  invalid_decision_changes_nothing Role.user none "alice" [] [] none ""
    ⟨1, none, [], "", "", "", "", "", "", "", "", "", "", "", ""⟩
    ⟨[], [], none⟩ (by decide)

/-! ## Claim C4: `add_fields_to_form` (`ticketflow/forms.py` lines 8-122) -/

/-- Initial value of a Django form field: a string for the text-like
fields, a boolean for `BooleanField`. -/
inductive InitVal where
  | str (s : String)
  | boolVal (b : Bool)
deriving DecidableEq, Repr

/-- Widget attached to each generated field: the explicit widgets the code
passes (`TextInput`, `Textarea`, `EmailInput`, `DateInput`, `RadioSelect`)
and the defaults of the chosen field classes (`Select` for `ChoiceField`,
`ClearableFileInput` for `FileField`, `NumberInput` for `IntegerField`,
`CheckboxInput` for `BooleanField`). -/
inductive Widget where
  | textInput
  | textareaWidget
  | selectWidget
  | clearableFileInput
  | emailInput
  | dateInput
  | numberInput
  | checkboxInput
  | radioSelect
deriving DecidableEq, Repr

/-- A generated Django form field, with the constructor arguments the code
passes: label, required, help_text, initial, the widget, and the
per-branch extras (max_length, parsed choices, numeric bounds, whether a
RegexValidator and the upload validator are attached, and whether the
readonly/disabled attrs were set afterwards). -/
structure DjangoField where
  label : String
  required : Bool
  help_text : String
  initial : Option InitVal
  widget : Widget
  max_length : Option Nat
  choices : List (String × String)
  min_value : Option Int
  max_value : Option Int
  has_regex_validator : Bool
  has_file_validator : Bool
  readonly_attrs : Bool
deriving DecidableEq, Repr

/-- `[(c.strip(), c.strip()) for c in choices.split(",") if c.strip()]`. -/
def parse_choices (s : String) : List (String × String) :=
  (s.splitOn ",").filterMap (fun c =>
    if c.trim ≠ "" then some (c.trim, c.trim) else none)

/-- The body of the `for ff in qs` loop of `add_fields_to_form` that
constructs one Django field from a metadata row (`forms.py` lines 37-122):
the initial value `(initial_map or {}).get(key, ff.default_value or
None)`, the regex validator, the nine field_type branches, and the
readonly attr handling.  In the checkbox branch the code tests membership
of `init` in `("True", "true", True, "1", 1)`; `init` here is a string or
absent, so the string forms decide it. -/
def build_dynamic_field (ff : FormField)
    (initial_map : Option (List (String × String))) : DjangoField :=
  let key := toString ff.id
  let init : Option String :=
    match lookup? (initial_map.getD []) key with
    | some v => some v
    | none => if ff.default_value = "" then none else some ff.default_value
  let has_regex := ff.regex ≠ ""
  match ff.field_type with
  | FieldType.text =>
      { label := ff.label, required := ff.required, help_text := ff.help_text,
        initial := init.map InitVal.str, widget := Widget.textInput,
        max_length := some (ff.max_length.getD 255), choices := [],
        min_value := none, max_value := none,
        has_regex_validator := has_regex, has_file_validator := false,
        readonly_attrs := ff.readonly }
  | FieldType.textarea =>
      { label := ff.label, required := ff.required, help_text := ff.help_text,
        initial := init.map InitVal.str, widget := Widget.textareaWidget,
        max_length := none, choices := [],
        min_value := none, max_value := none,
        has_regex_validator := has_regex, has_file_validator := false,
        readonly_attrs := ff.readonly }
  | FieldType.select =>
      { label := ff.label, required := ff.required, help_text := ff.help_text,
        initial := init.map InitVal.str, widget := Widget.selectWidget,
        max_length := none, choices := parse_choices ff.choices,
        min_value := none, max_value := none,
        has_regex_validator := has_regex, has_file_validator := false,
        readonly_attrs := ff.readonly }
  | FieldType.file =>
      { label := ff.label, required := ff.required, help_text := ff.help_text,
        initial := init.map InitVal.str, widget := Widget.clearableFileInput,
        max_length := none, choices := [],
        min_value := none, max_value := none,
        has_regex_validator := has_regex, has_file_validator := true,
        readonly_attrs := ff.readonly }
  | FieldType.email =>
      { label := ff.label, required := ff.required, help_text := ff.help_text,
        initial := init.map InitVal.str, widget := Widget.emailInput,
        max_length := none, choices := [],
        min_value := none, max_value := none,
        has_regex_validator := has_regex, has_file_validator := false,
        readonly_attrs := ff.readonly }
  | FieldType.date =>
      { label := ff.label, required := ff.required, help_text := ff.help_text,
        initial := init.map InitVal.str, widget := Widget.dateInput,
        max_length := none, choices := [],
        min_value := none, max_value := none,
        has_regex_validator := has_regex, has_file_validator := false,
        readonly_attrs := ff.readonly }
  | FieldType.number =>
      { label := ff.label, required := ff.required, help_text := ff.help_text,
        initial := init.map InitVal.str, widget := Widget.numberInput,
        max_length := none, choices := [],
        min_value := ff.min_value, max_value := ff.max_value,
        has_regex_validator := has_regex, has_file_validator := false,
        readonly_attrs := ff.readonly }
  | FieldType.checkbox =>
      { label := ff.label, required := ff.required, help_text := ff.help_text,
        initial := some (InitVal.boolVal
          (init == some "True" || init == some "true" || init == some "1")),
        widget := Widget.checkboxInput,
        max_length := none, choices := [],
        min_value := none, max_value := none,
        has_regex_validator := false, has_file_validator := false,
        readonly_attrs := ff.readonly }
  | FieldType.radio =>
      { label := ff.label, required := ff.required, help_text := ff.help_text,
        initial := init.map InitVal.str, widget := Widget.radioSelect,
        max_length := none, choices := parse_choices ff.choices,
        min_value := none, max_value := none,
        has_regex_validator := has_regex, has_file_validator := false,
        readonly_attrs := ff.readonly }

/-- Assignment `django_form.fields[key] = field` on the form's ordered
field dict: overwrite the entry for an existing key, else append. -/
def dict_assign (m : List (String × DjangoField)) (k : String)
    (v : DjangoField) : List (String × DjangoField) :=
  if m.any (fun kv => kv.1 == k) then
    m.map (fun kv => if kv.1 == k then (k, v) else kv)
  else
    m ++ [(k, v)]

/-- Embedding of `add_fields_to_form` (`forms.py` lines 8-122), returning
the dynamically added fields in insertion order (the base form's fields
such as the `form` selector or the `role_comment` field have non-numeric
keys and are disjoint from these).  Either `role_code` or `role` selects
the role; a `None`/empty role leaves `qs` unfiltered.  Hidden rows and
rows whose label is in `exclude_labels` are skipped. -/
def add_fields_to_form (form_fields : List FormField)
    (role_code : Option String) (role : Option String)
    (initial_map : Option (List (String × String)))
    (exclude_labels : Option (List String)) :
    List (String × DjangoField) :=
  let rc : Option String := match role_code with
    | none => role
    | some x => some x
  let excl : List String := exclude_labels.getD []
  let qs : List FormField := match rc with
    | some r => if r ≠ "" then form_fields.filter (fun ff => ff.role == r)
        else form_fields
    | none => form_fields
  qs.foldl (fun acc ff =>
    if ff.hidden || excl.contains ff.label then acc
    else dict_assign acc (toString ff.id)
      (build_dynamic_field ff initial_map)) []

/-- Spec-side: the widget the claim associates to each metadata
field_type. -/
def widgetOf : FieldType → Widget
  | FieldType.text => Widget.textInput
  | FieldType.textarea => Widget.textareaWidget
  | FieldType.select => Widget.selectWidget
  | FieldType.file => Widget.clearableFileInput
  | FieldType.email => Widget.emailInput
  | FieldType.date => Widget.dateInput
  | FieldType.number => Widget.numberInput
  | FieldType.checkbox => Widget.checkboxInput
  | FieldType.radio => Widget.radioSelect

theorem build_dynamic_field_props (ff : FormField)
    (initial_map : Option (List (String × String))) :
    (build_dynamic_field ff initial_map).label = ff.label ∧
    (build_dynamic_field ff initial_map).required = ff.required ∧
    (build_dynamic_field ff initial_map).help_text = ff.help_text ∧
    (build_dynamic_field ff initial_map).widget = widgetOf ff.field_type := by
  cases hft : ff.field_type <;>
    simp [build_dynamic_field, widgetOf, hft]

theorem dict_assign_fresh (m : List (String × DjangoField)) (k : String)
    (v : DjangoField) (h : ∀ kv ∈ m, kv.1 ≠ k) :
    dict_assign m k v = m ++ [(k, v)] := by
  unfold dict_assign
  rw [if_neg]
  intro hany
  rcases List.any_eq_true.mp hany with ⟨kv, hkv, hk⟩
  exact h kv hkv (by simpa using hk)

theorem fold_add_fields (initial_map : Option (List (String × String)))
    (excl : List String) :
    ∀ (qs : List FormField) (acc : List (String × DjangoField)),
    ((qs.map (fun ff => toString ff.id)).Nodup) →
    (∀ ff ∈ qs, ∀ kv ∈ acc, kv.1 ≠ toString ff.id) →
    (qs.foldl (fun acc ff =>
        if ff.hidden || excl.contains ff.label then acc
        else dict_assign acc (toString ff.id)
          (build_dynamic_field ff initial_map)) acc) =
      acc ++ (qs.filter (fun ff =>
          !(ff.hidden || excl.contains ff.label))).map
        (fun ff => (toString ff.id, build_dynamic_field ff initial_map)) := by
  intro qs
  induction qs with
  | nil => intro acc _ _; simp
  | cons ff t ih =>
    intro acc hnodup hdisj
    rw [List.map_cons, List.nodup_cons] at hnodup
    rw [List.foldl_cons]
    by_cases hskip : (ff.hidden || excl.contains ff.label) = true
    · rw [if_pos hskip]
      rw [ih acc hnodup.2
        (fun g hg kv hkv => hdisj g (by simp [hg]) kv hkv)]
      have hpf : (!(ff.hidden || excl.contains ff.label)) = false := by
        rw [hskip]
        rfl
      rw [List.filter_cons, hpf]
      simp
    · rw [if_neg hskip]
      have hfresh : dict_assign acc (toString ff.id)
          (build_dynamic_field ff initial_map) =
          acc ++ [(toString ff.id, build_dynamic_field ff initial_map)] :=
        dict_assign_fresh _ _ _ (fun kv hkv => hdisj ff (by simp) kv hkv)
      rw [hfresh]
      have hdisj' : ∀ g ∈ t, ∀ kv ∈
          acc ++ [(toString ff.id, build_dynamic_field ff initial_map)],
          kv.1 ≠ toString g.id := by
        intro g hg kv hkv
        rcases List.mem_append.mp hkv with hkv | hkv
        · exact hdisj g (by simp [hg]) kv hkv
        · have hkv' : kv = (toString ff.id,
              build_dynamic_field ff initial_map) := by simpa using hkv
          subst hkv'
          intro hcontra
          have hcontra' : toString ff.id = toString g.id := hcontra
          exact hnodup.1 (by
            rw [hcontra']
            exact List.mem_map_of_mem _ hg)
      rw [ih _ hnodup.2 hdisj']
      have hb : (ff.hidden || excl.contains ff.label) = false := by
        revert hskip
        cases ff.hidden || excl.contains ff.label <;> simp
      have hpt : (!(ff.hidden || excl.contains ff.label)) = true := by
        rw [hb]
        rfl
      rw [List.filter_cons, hpt]
      simp

/-- C4: with a non-empty role, `add_fields_to_form` adds exactly one
Django form field, keyed by `str(ff.id)`, for each metadata row of the
form whose role matches, that is not hidden, and whose label is not in the
exclusion set — in row order, with the row's label, required flag and help
text and the widget determined by the row's field_type; hidden or excluded
rows contribute nothing.  (The hypothesis that the key strings of the
role's rows are distinct is the primary-key invariant of the `FormField`
table.) -/
theorem add_fields_to_form_spec (form_fields : List FormField) (r : String)
    (initial_map : Option (List (String × String)))
    (exclude_labels : List String)
    (hr : r ≠ "")
    (hkeys : (((form_fields.filter (fun ff => ff.role == r)).map
      (fun ff => toString ff.id))).Nodup) :
    add_fields_to_form form_fields none (some r) initial_map
        (some exclude_labels) =
      ((form_fields.filter (fun ff => ff.role == r)).filter
          (fun ff => !(ff.hidden || exclude_labels.contains ff.label))).map
        (fun ff => (toString ff.id, build_dynamic_field ff initial_map)) ∧
    (∀ key fld,
      (key, fld) ∈ add_fields_to_form form_fields none (some r) initial_map
          (some exclude_labels) →
      ∃ ff ∈ form_fields,
        ff.role = r ∧ ff.hidden = false ∧
        exclude_labels.contains ff.label = false ∧
        key = toString ff.id ∧ fld.label = ff.label ∧
        fld.required = ff.required ∧ fld.help_text = ff.help_text ∧
        fld.widget = widgetOf ff.field_type) := by
  have hout : add_fields_to_form form_fields none (some r) initial_map
      (some exclude_labels) =
      ((form_fields.filter (fun ff => ff.role == r)).filter
          (fun ff => !(ff.hidden || exclude_labels.contains ff.label))).map
        (fun ff => (toString ff.id, build_dynamic_field ff initial_map)) := by
    unfold add_fields_to_form
    simp only [Option.getD]
    rw [if_pos hr]
    exact fold_add_fields initial_map exclude_labels
      (form_fields.filter (fun ff => ff.role == r)) [] hkeys
      (by intro _ _ kv hkv; exact absurd hkv (by simp))
  refine ⟨hout, ?_⟩
  intro key fld hmem
  rw [hout] at hmem
  rcases List.mem_map.mp hmem with ⟨ff, hff, heq⟩
  have hff2 := List.mem_filter.mp hff
  have hff3 := List.mem_filter.mp hff2.1
  have hk : toString ff.id = key := congrArg Prod.fst heq
  have hf : build_dynamic_field ff initial_map = fld := congrArg Prod.snd heq
  refine ⟨ff, hff3.1, by simpa using hff3.2, ?_, ?_, hk.symm, ?_, ?_, ?_, ?_⟩
  · have := hff2.2
    simp only [Bool.not_eq_true', Bool.or_eq_false_iff] at this
    exact this.1
  · have := hff2.2
    simp only [Bool.not_eq_true', Bool.or_eq_false_iff] at this
    simpa using this.2
  · rw [← hf]
    exact (build_dynamic_field_props ff initial_map).1
  · rw [← hf]
    exact (build_dynamic_field_props ff initial_map).2.1
  · rw [← hf]
    exact (build_dynamic_field_props ff initial_map).2.2.1
  · rw [← hf]
    exact (build_dynamic_field_props ff initial_map).2.2.2

/-- A concrete metadata table: a visible "user" text field, an excluded
"Description" row, a hidden row, and a "dev" row. -/
def c4Fields : List FormField :=
  [⟨1, 10, "Summary", FieldType.text, true, "h", "", none, 0, "user",
      "", "", none, none, "", false, false⟩,
   ⟨2, 10, "Description", FieldType.textarea, false, "", "", none, 1,
      "user", "", "", none, none, "", false, false⟩,
   ⟨3, 10, "Secret", FieldType.text, false, "", "", none, 2, "user",
      "", "", none, none, "", false, true⟩,
   ⟨4, 10, "Dev", FieldType.text, false, "", "", none, 3, "dev",
      "", "", none, none, "", false, false⟩]

/-- C4 witness: the theorem evaluated on `c4Fields` for role "user" with
"Description" excluded. -/
theorem add_fields_to_form_spec_witness :
    add_fields_to_form c4Fields none (some "user") none
        (some ["Description"]) =
      ((c4Fields.filter (fun ff => ff.role == "user")).filter
          (fun ff => !(ff.hidden || ["Description"].contains ff.label))).map
        (fun ff => (toString ff.id, build_dynamic_field ff none)) ∧
    (∀ key fld,
      (key, fld) ∈ add_fields_to_form c4Fields none (some "user") none
          (some ["Description"]) →
      ∃ ff ∈ c4Fields,
        ff.role = "user" ∧ ff.hidden = false ∧
        (["Description"] : List String).contains ff.label = false ∧
        key = toString ff.id ∧ fld.label = ff.label ∧
        fld.required = ff.required ∧ fld.help_text = ff.help_text ∧
        fld.widget = widgetOf ff.field_type) :=
  add_fields_to_form_spec c4Fields "user" none ["Description"]
    (by decide) (by decide)

/-! ## Claim C5: CSV/XLSX export (`ticketflow/admin.py` lines 63-156) -/

/-- A timestamp as `strftime("%Y-%m-%d %H:%M")` consumes it. -/
structure DateTime where
  year : Nat
  month : Nat
  day : Nat
  hour : Nat
  minute : Nat
deriving DecidableEq, Repr

/-- Zero-padded two-digit rendering of a timestamp component. -/
def pad2 (n : Nat) : String :=
  if n < 10 then "0" ++ toString n else toString n

/-- `entry.submitted_at.strftime("%Y-%m-%d %H:%M")`. -/
def strftime_ymd_hm (t : DateTime) : String :=
  toString t.year ++ "-" ++ pad2 t.month ++ "-" ++ pad2 t.day ++ " " ++
    pad2 t.hour ++ ":" ++ pad2 t.minute

/-- A `FormEntry` row as the admin export queryset sees it: its id, form
FK, submitter's username (`none` when NULL), timestamp, and its
prefetched `values` rows. -/
structure AdminEntry where
  id : Nat
  form_id : Nat
  username : Option String
  submitted_at : DateTime
  value_rows : List FormEntryValue
deriving DecidableEq, Repr

/-- One cell of the exported table: `entry.id` is written as a number,
everything else as text. -/
inductive Cell where
  | natVal (n : Nat)
  | strVal (s : String)
deriving DecidableEq, Repr

/-- The `values_map` dict comprehension of the export actions
(`admin.py`): `{v.field_id: v.value_text or (v.value_file.url if
v.value_file else "") for v in entry.values.all()}` followed by
`.get(f.id, "")`; a later row with the same field id overwrites an
earlier one. -/
def values_map_get (rows : List FormEntryValue) (fid : Nat) : String :=
  match rows.reverse.find? (fun v => v.field_id == fid) with
  | some v =>
      if v.value_text ≠ "" then v.value_text else v.value_file.getD ""
  | none => ""

/-- One data row of both exports (`admin.py` lines 103-107 and 140-144):
`[entry.id, username or "", submitted_at.strftime(...)] +
[values_map.get(f.id, "") for f in fields]`. -/
def entry_export_row (fields : List FormField) (e : AdminEntry) :
    List Cell :=
  [Cell.natVal e.id,
   Cell.strVal (e.username.getD ""),
   Cell.strVal (strftime_ymd_hm e.submitted_at)] ++
  fields.map (fun f => Cell.strVal (values_map_get e.value_rows f.id))

/-- `order_by("id")` on the selected entries. -/
def entryIdLe (a b : AdminEntry) : Prop := a.id ≤ b.id

instance instDecEntryIdLe : DecidableRel entryIdLe := fun a b => by
  unfold entryIdLe
  infer_instance

instance instTotalEntryIdLe : IsTotal AdminEntry entryIdLe :=
  ⟨fun a b => Nat.le_total a.id b.id⟩

instance instTransEntryIdLe : IsTrans AdminEntry entryIdLe :=
  ⟨fun _ _ _ => Nat.le_trans⟩

/-- Embedding of `export_entries_csv` (`admin.py` lines 77-110) at the
tabular-data level: `none` when `_ensure_single_form_or_error` rejects the
selection (the queryset spans more or fewer than one form), otherwise the
header row followed by the data rows of the id-ordered queryset.  The CSV
serialization of the rows is not modelled. -/
def export_entries_csv (all_fields : List FormField)
    (queryset : List AdminEntry) : Option (List (List Cell)) :=
  let form_ids := (queryset.map AdminEntry.form_id).dedup
  if form_ids.length ≠ 1 then none
  else
    match queryset with
    | [] => none
    | e0 :: _ =>
      let fields := orderedFields
        (all_fields.filter (fun ff => ff.form_id == e0.form_id))
      let header := [Cell.strVal "Entry ID", Cell.strVal "Submitted by",
          Cell.strVal "Submitted at"] ++
        fields.map (fun f => Cell.strVal f.label)
      let qs := List.insertionSort entryIdLe queryset
      some (header :: qs.map (entry_export_row fields))

/-- Embedding of `export_entries_xlsx` (`admin.py` lines 116-156) at the
tabular-data level: same input handling, header and rows as the CSV
action; the XLSX workbook serialization is not modelled. -/
def export_entries_xlsx (all_fields : List FormField)
    (queryset : List AdminEntry) : Option (List (List Cell)) :=
  let form_ids := (queryset.map AdminEntry.form_id).dedup
  if form_ids.length ≠ 1 then none
  else
    match queryset with
    | [] => none
    | e0 :: _ =>
      let fields := orderedFields
        (all_fields.filter (fun ff => ff.form_id == e0.form_id))
      let header := [Cell.strVal "Entry ID", Cell.strVal "Submitted by",
          Cell.strVal "Submitted at"] ++
        fields.map (fun f => Cell.strVal f.label)
      let qs := List.insertionSort entryIdLe queryset
      some (header :: qs.map (entry_export_row fields))

/-- The entry ids carried in a table's data rows (the header starts with a
text cell and contributes nothing). -/
def table_row_ids (t : List (List Cell)) : List Nat :=
  t.filterMap (fun row =>
    match row.head? with
    | some (Cell.natVal n) => some n
    | _ => none)

theorem length_le_one_of_nodup_const {α : Type} {l : List α} {a : α}
    (hn : l.Nodup) (h : ∀ x ∈ l, x = a) : l.length ≤ 1 := by
  match l with
  | [] => simp
  | [x] => simp
  | x :: y :: t =>
    exfalso
    have hx := h x (by simp)
    have hy := h y (by simp)
    rw [List.nodup_cons] at hn
    exact hn.1 (by
      rw [hx, ← hy]
      simp)

theorem filterMap_head_ids (fields : List FormField) :
    ∀ qs : List AdminEntry,
    (qs.map (entry_export_row fields)).filterMap (fun row =>
        match row.head? with
        | some (Cell.natVal n) => some n
        | _ => none) = qs.map AdminEntry.id := by
  intro qs
  induction qs with
  | nil => rfl
  | cons e t ih =>
    simp only [List.map_cons, List.filterMap_cons]
    simp [entry_export_row, ih]

/-- C5: on a selection of entries that all belong to one form, the CSV and
XLSX exports produce the same tabular data; that data has the claimed
header (Entry ID, Submitted by, Submitted at, then the form's field labels
in field order) and one row per selected entry in strictly ascending
entry-id order, each row as `entry_export_row` builds it (id, username or
"", the formatted timestamp, and per-field values defaulting to ""). -/
theorem export_csv_xlsx_same_table (all_fields : List FormField)
    (queryset : List AdminEntry) (e0 : AdminEntry) (rest : List AdminEntry)
    (hq : queryset = e0 :: rest)
    (hone : ∀ e ∈ queryset, e.form_id = e0.form_id)
    (hids : (queryset.map AdminEntry.id).Nodup) :
    export_entries_csv all_fields queryset =
      export_entries_xlsx all_fields queryset ∧
    ∃ t, export_entries_csv all_fields queryset = some t ∧
      t.head? = some ([Cell.strVal "Entry ID", Cell.strVal "Submitted by",
          Cell.strVal "Submitted at"] ++
        (orderedFields (all_fields.filter
          (fun ff => ff.form_id == e0.form_id))).map
          (fun f => Cell.strVal f.label)) ∧
      t.tail.Perm (queryset.map (entry_export_row (orderedFields
        (all_fields.filter (fun ff => ff.form_id == e0.form_id))))) ∧
      List.Sorted (· < ·) (table_row_ids t) := by
  subst hq
  have hdedup_mem : e0.form_id ∈
      ((e0 :: rest).map AdminEntry.form_id).dedup := by
    rw [List.mem_dedup]
    simp
  have hconst : ∀ x ∈ ((e0 :: rest).map AdminEntry.form_id).dedup,
      x = e0.form_id := by
    intro x hx
    rcases List.mem_map.mp (List.mem_dedup.mp hx) with ⟨e, he, hfe⟩
    rw [← hfe]
    exact hone e he
  have hlen : (((e0 :: rest).map AdminEntry.form_id).dedup).length = 1 := by
    have h1 := length_le_one_of_nodup_const (List.nodup_dedup _) hconst
    have h2 : 0 < (((e0 :: rest).map AdminEntry.form_id).dedup).length :=
      List.length_pos_of_mem hdedup_mem
    omega
  have hcsv : export_entries_csv all_fields (e0 :: rest) =
      some (([Cell.strVal "Entry ID", Cell.strVal "Submitted by",
          Cell.strVal "Submitted at"] ++
        (orderedFields (all_fields.filter
          (fun ff => ff.form_id == e0.form_id))).map
          (fun f => Cell.strVal f.label)) ::
        (List.insertionSort entryIdLe (e0 :: rest)).map
          (entry_export_row (orderedFields (all_fields.filter
            (fun ff => ff.form_id == e0.form_id))))) := by
    unfold export_entries_csv
    simp only []
    rw [hlen]
    rw [if_neg (by omega)]
  refine ⟨by unfold export_entries_csv export_entries_xlsx; rfl, _, hcsv,
    rfl, ?_, ?_⟩
  · exact (List.perm_insertionSort entryIdLe (e0 :: rest)).map _
  · have hrowids : table_row_ids
        ((([Cell.strVal "Entry ID", Cell.strVal "Submitted by",
            Cell.strVal "Submitted at"] ++
          (orderedFields (all_fields.filter
            (fun ff => ff.form_id == e0.form_id))).map
            (fun f => Cell.strVal f.label)) ::
          (List.insertionSort entryIdLe (e0 :: rest)).map
            (entry_export_row (orderedFields (all_fields.filter
              (fun ff => ff.form_id == e0.form_id)))))) =
        (List.insertionSort entryIdLe (e0 :: rest)).map AdminEntry.id := by
      unfold table_row_ids
      rw [List.filterMap_cons]
      exact filterMap_head_ids _ _
    rw [hrowids]
    have hsorted_le : List.Pairwise entryIdLe
        (List.insertionSort entryIdLe (e0 :: rest)) :=
      List.sorted_insertionSort entryIdLe (e0 :: rest)
    have hperm_ids : ((List.insertionSort entryIdLe (e0 :: rest)).map
        AdminEntry.id).Perm ((e0 :: rest).map AdminEntry.id) :=
      (List.perm_insertionSort entryIdLe (e0 :: rest)).map _
    have hnodup_ids : ((List.insertionSort entryIdLe (e0 :: rest)).map
        AdminEntry.id).Nodup := hperm_ids.nodup_iff.mpr hids
    have hpl : List.Pairwise (· ≤ ·)
        ((List.insertionSort entryIdLe (e0 :: rest)).map AdminEntry.id) :=
      List.Pairwise.map _ (fun _ _ h => h) hsorted_le
    exact (hpl.and hnodup_ids).imp (fun h => lt_of_le_of_ne h.1 h.2)

/-- A one-field form for the export witness. -/
def c5Fields : List FormField :=
  [⟨1, 10, "Summary", FieldType.text, true, "", "", none, 0, "user",
      "", "", none, none, "", false, false⟩]

/-- An entry with id 2 submitted by alice, holding a value for field 1. -/
def c5E1 : AdminEntry :=
  ⟨2, 10, some "alice", ⟨2026, 1, 2, 3, 4⟩, [⟨2, 1, "v2", none⟩]⟩

/-- An entry with id 1, anonymous, with no values. -/
def c5E2 : AdminEntry := ⟨1, 10, none, ⟨2026, 1, 2, 3, 5⟩, []⟩

/-- C5 witness: a two-entry selection of one form, listed out of id order,
evaluated through the theorem. -/
theorem export_csv_xlsx_same_table_witness :
    export_entries_csv c5Fields [c5E1, c5E2] =
      export_entries_xlsx c5Fields [c5E1, c5E2] ∧
    ∃ t, export_entries_csv c5Fields [c5E1, c5E2] = some t ∧
      t.head? = some ([Cell.strVal "Entry ID", Cell.strVal "Submitted by",
          Cell.strVal "Submitted at"] ++
        (orderedFields (c5Fields.filter
          (fun ff => ff.form_id == c5E1.form_id))).map
          (fun f => Cell.strVal f.label)) ∧
      t.tail.Perm ([c5E1, c5E2].map (entry_export_row (orderedFields
        (c5Fields.filter (fun ff => ff.form_id == c5E1.form_id))))) ∧
      List.Sorted (· < ·) (table_row_ids t) :=
  export_csv_xlsx_same_table c5Fields [c5E1, c5E2] c5E1 [c5E2] rfl
    (by decide) (by decide)

end GRCFlow
